import Mathlib

/-!
Verification of the supplier-onboarding email correlation engine
(`bot/services/email_service.py`, `bot/services/email_receiver.py`,
`bot/services/reply_processor.py`, model `bot/models/sent_email.py`).

The Python code is shallowly embedded: pure helpers become Lean functions on
`String` / `List Char`; the database-backed ledger of `SentEmail` rows becomes
an explicit `List SentEmail` threaded through the operations; network and
clock effects (SMTP/IMAP outcome, `datetime.now`, `uuid4`) become explicit
parameters.  Python truthiness of optional strings is modelled by `Option`
with `some ""` counted as falsy where the source tests truthiness.
-/

namespace MailCore

/-- Lower-casing of a single character as performed by Python `str.lower()`,
restricted to the scripts that occur in this code base: ASCII letters and
Russian Cyrillic (`А`–`Я` and `Ё`).  All other characters are unchanged. -/
def pyLowerChar (c : Char) : Char :=
  if 'A' ≤ c ∧ c ≤ 'Z' then Char.ofNat (c.toNat + 32)
  else if 'А' ≤ c ∧ c ≤ 'Я' then Char.ofNat (c.toNat + 32)
  else if c = 'Ё' then 'ё'
  else c

/-- Lower-casing of a character list (Python `str.lower()`). -/
def pyLower (l : List Char) : List Char := l.map pyLowerChar

/-- Upper-casing of a single character (Python `str.upper()`), restricted to
ASCII letters and Russian Cyrillic. -/
def pyUpperChar (c : Char) : Char :=
  if 'a' ≤ c ∧ c ≤ 'z' then Char.ofNat (c.toNat - 32)
  else if 'а' ≤ c ∧ c ≤ 'я' then Char.ofNat (c.toNat - 32)
  else if c = 'ё' then 'Ё'
  else c

/-- Upper-casing of a character list (Python `str.upper()`). -/
def pyUpper (l : List Char) : List Char := l.map pyUpperChar

/-- The space characters removed by Python `str.strip()` on the ASCII range. -/
def isPySpace (c : Char) : Bool :=
  c = ' ' ∨ c = '\t' ∨ c = '\n' ∨ c = '\r' ∨ c = '\x0b' ∨ c = '\x0c'

/-- Python `str.strip()`: remove whitespace from both ends. -/
def pyStrip (l : List Char) : List Char :=
  (l.dropWhile isPySpace).rdropWhile isPySpace

/-- Is `pat` a prefix of `l`?  (Boolean, over character lists.) -/
def startsWithCh : List Char → List Char → Bool
  | [], _ => true
  | _ :: _, [] => false
  | a :: as, b :: bs => a = b && startsWithCh as bs

/-- Python `pat in l` substring containment over character lists. -/
def containsSub (pat : List Char) : List Char → Bool
  | [] => pat.isEmpty
  | c :: rest => startsWithCh pat (c :: rest) || containsSub pat rest

/-- Split a character list on every occurrence of `sep`, keeping empty
segments, as Python `str.split(sep)` does. -/
def splitCh (sep : Char) : List Char → List (List Char)
  | [] => [[]]
  | c :: rest =>
    if c = sep then [] :: splitCh sep rest
    else
      match splitCh sep rest with
      | [] => [[c]]
      | g :: gs => (c :: g) :: gs

/-- Join segments with the separator `sep`: inverse of `splitCh`. -/
def joinCh (sep : Char) : List (List Char) → List Char
  | [] => []
  | [g] => g
  | g :: gs => g ++ sep :: joinCh sep gs

/-- Characters stripped by `message_id.strip("<>")`. -/
def isAngle (c : Char) : Bool := c = '<' ∨ c = '>'

/-- Python `s.strip("<>")`: remove `<` and `>` from both ends. -/
def stripAngles (l : List Char) : List Char :=
  (l.dropWhile isAngle).rdropWhile isAngle

/-- Characters allowed inside a tracking code: the regex class `[A-Z0-9]`. -/
def isCodeChar (c : Char) : Bool :=
  ('A' ≤ c && c ≤ 'Z') || ('0' ≤ c && c ≤ '9')

/-- Attempt to match the regex `\[ML-([A-Z0-9]{5})\]` at the head of the
list, returning the five captured characters. -/
def codeAt : List Char → Option (List Char)
  | '[' :: 'M' :: 'L' :: '-' :: c1 :: c2 :: c3 :: c4 :: c5 :: ']' :: _ =>
    if isCodeChar c1 && isCodeChar c2 && isCodeChar c3 && isCodeChar c4 &&
        isCodeChar c5 then
      some [c1, c2, c3, c4, c5]
    else none
  | _ => none

/-- Leftmost search for the bracketed tracking-code pattern, as
`re.search(r'\[ML-([A-Z0-9]{5})\]', subject)` does. -/
def scanCode : List Char → Option (List Char)
  | [] => none
  | c :: rest =>
    match codeAt (c :: rest) with
    | some code => some code
    | none => scanCode rest

/-- Embedding of `extract_tracking_code` (email_service.py): extract the
`[ML-XXXXX]` code from a subject line, returning `ML-XXXXX`. -/
def extract_tracking_code (subject : String) : Option String :=
  (scanCode subject.data).map fun cs => String.mk ('M' :: 'L' :: '-' :: cs)

/-- Embedding of `generate_message_id` (email_service.py).  The source embeds
`uuid.uuid4().hex[:12]`; the random component is the explicit `uid`
parameter here.  Format: `<uid.email_type.supplier_inn@mnogolososya.ru>`. -/
def generate_message_id (uid email_type supplier_inn : String) : String :=
  "<" ++ uid ++ "." ++ email_type ++ "." ++ supplier_inn ++ "@mnogolososya.ru>"

/-- Embedding of `parse_message_id` (email_service.py): strip `<>`, take the
part before `@`, split on `.`, and return parts 1 and 2 when at least three
parts exist. -/
def parse_message_id (message_id : String) : Option (String × String) :=
  let clean := stripAngles message_id.data
  let beforeAt :=
    match splitCh '@' clean with
    | [] => []
    | p :: _ => p
  match splitCh '.' beforeAt with
  | _ :: b :: c :: _ => some (String.mk b, String.mk c)
  | _ => none

/-- The four members of the `EmailType` enum (bot/models/sent_email.py). -/
inductive EmailType where
  | sb_check
  | docsinbox
  | roaming
  | documents
deriving DecidableEq, Repr

/-- The `.value` string of an `EmailType` member. -/
def EmailType.value : EmailType → String
  | .sb_check => "sb_check"
  | .docsinbox => "docsinbox"
  | .roaming => "roaming"
  | .documents => "documents"

/-- The `EmailType(email_type)` enum constructor applied to a string: `none`
models the `ValueError` raised on an unknown value. -/
def emailTypeOfString : String → Option EmailType
  | "sb_check" => some .sb_check
  | "docsinbox" => some .docsinbox
  | "roaming" => some .roaming
  | "documents" => some .documents
  | _ => none

/-- One row of the `sent_emails` table (bot/models/sent_email.py), the
Outbound Ledger, with exactly the columns the committed model declares.
Timestamps are abstracted to `Nat`.  Note that the model declares *no*
`tracking_code` column, although email_service.py passes such a keyword to
the constructor and email_receiver.py probes for the attribute with
`hasattr`: no row of the committed program ever carries it. -/
structure SentEmail where
  message_id : String
  supplier_inn : String
  supplier_name : String
  email_type : EmailType
  recipient : String
  cc_recipients : Option String
  subject : String
  sent_at : Nat
  telegram_user_id : Int
  reply_received : Bool
  reply_received_at : Option Nat
  reply_message_id : Option String
deriving DecidableEq, Repr

/-- The field updates performed by `mark_reply_received` on the matched row:
`reply_received = True`, `reply_received_at = datetime.now(...)` (the explicit
`now`), and `reply_message_id` overwritten only when the argument is truthy
(non-`None` and non-empty). -/
def updReply (r : Option String) (now : Nat) (row : SentEmail) : SentEmail :=
  { row with
    reply_received := true
    reply_received_at := some now
    reply_message_id :=
      match r with
      | some s => if s ≠ "" then some s else row.reply_message_id
      | none => row.reply_message_id }

/-- Embedding of `mark_reply_received` (email_service.py).  The ledger is the
explicit row list; `scalar_one_or_none` on the unique `message_id` column is
modelled by requiring exactly one matching row (zero matches logs a warning
and returns `False`; several matches raise, which the `except` turns into
`False`; both leave the ledger unchanged).  Returns the success flag and the
resulting ledger. -/
def mark_reply_received (ledger : List SentEmail) (message_id : String)
    (reply_message_id : Option String) (now : Nat) : Bool × List SentEmail :=
  match ledger.filter (fun row => row.message_id = message_id) with
  | [_] =>
    (true,
      ledger.map fun row =>
        if row.message_id = message_id then updReply reply_message_id now row
        else row)
  | _ => (false, ledger)

/-- An outgoing message (the `EmailMessage` dataclass, email_service.py).
Attachments are abstracted to their display names. -/
structure EmailMessage where
  to_addrs : List String
  cc : List String
  subject : String
  body : String
  attachments : List String := []
  message_id : String := ""
deriving DecidableEq, Repr

/-- The module-level SMTP/test-mode configuration of email_service.py
(`SMTP_EMAIL`, `SMTP_PASSWORD`, `EMAIL_TEST_MODE`, `TEST_EMAIL`), read from
the environment. -/
structure EmailConfig where
  smtp_email : String
  smtp_password : String
  test_mode : Bool
  test_email : String
deriving Repr

/-- Embedding of `_check_smtp_config`: both credentials must be non-empty. -/
def check_smtp_config (cfg : EmailConfig) : Bool :=
  ¬(cfg.smtp_email = "" ∨ cfg.smtp_password = "")

/-- Result of `send_email`.  Python mutates the passed `EmailMessage` in
place in test mode, so the possibly-rewritten object is returned alongside
the success flag; `transport_recipients` is the `to + cc` list handed to
`_send_via_smtp`, or `none` when SMTP was never attempted. -/
structure SendOutcome where
  success : Bool
  email : EmailMessage
  transport_recipients : Option (List String)
deriving Repr

/-- Embedding of `send_email` (email_service.py).  `smtp_ok` is the outcome
of the external `_send_via_smtp` network call.  When `EMAIL_TEST_MODE` is on,
`email.to` is rewritten to `[TEST_EMAIL]` and `email.cc` to `[]` before the
MIME message and the recipient list are built. -/
def send_email (cfg : EmailConfig) (smtp_ok : Bool) (email : EmailMessage) :
    SendOutcome :=
  if ¬check_smtp_config cfg then ⟨false, email, none⟩
  else
    let email :=
      if cfg.test_mode then { email with to_addrs := [cfg.test_email], cc := [] }
      else email
    ⟨smtp_ok, email, some (email.to_addrs ++ email.cc)⟩

/-- Embedding of `save_sent_email` (email_service.py).  The source first
evaluates `EmailType(email_type)` (a `ValueError` on an unknown value is
caught and turned into `False`); it then calls
`SentEmail(message_id=…, tracking_code=…, …)`.  Because the committed
`SentEmail` model declares no `tracking_code` column, the declarative
constructor raises `TypeError` on that keyword, the broad `except` catches
it and the function returns `False` — so *no ledger row is ever written*,
whatever the arguments.  The embedding returns the committed row: always
`none`. -/
def save_sent_email (_message_id _tracking_code _supplier_inn _supplier_name
    : String) (email_type : String) (_recipient : String)
    (_cc_recipients : List String) (_subject : String)
    (_telegram_user_id : Int) (_sent_at : Nat) : Option SentEmail :=
  match emailTypeOfString email_type with
  | none => none
  | some _ => none

/-- Result of the `send_and_save` helper inside
`send_supplier_registration_emails`. -/
structure SendAndSaveResult where
  success : Bool
  transport_recipients : Option (List String)
  saved_row : Option SentEmail
deriving Repr

/-- Embedding of the `send_and_save` closure (email_service.py, inside
`send_supplier_registration_emails`): generate the Message-ID, send via
`send_email` (which may mutate the message in place), then — when
`telegram_user_id` is truthy — record the row, reading `email.to[0]`,
`email.cc` and `email.subject` from the message object *after* the send. -/
def send_and_save (cfg : EmailConfig) (smtp_ok : Bool) (uid : String)
    (email : EmailMessage) (email_type : String)
    (tracking_code supplier_inn supplier_name : String)
    (telegram_user_id : Int) (sent_at : Nat) : SendAndSaveResult :=
  let mid := generate_message_id uid email_type supplier_inn
  let email := { email with message_id := mid }
  let out := send_email cfg smtp_ok email
  let row :=
    if telegram_user_id ≠ 0 then
      save_sent_email mid tracking_code supplier_inn supplier_name email_type
        (out.email.to_addrs.headD "") out.email.cc out.email.subject
        telegram_user_id sent_at
    else none
  ⟨out.success, out.transport_recipients, row⟩

/-- A parsed inbound message (the `IncomingEmail` dataclass,
email_receiver.py).  `in_reply_to` keeps the parser's convention of `""` for
a missing header; attachments are abstracted to filenames. -/
structure IncomingEmail where
  uid : String
  message_id : String
  in_reply_to : String
  references : List String
  from_addr : String
  subject : String
  body_text : String
  attachments : List String := []
deriving DecidableEq, Repr

/-- One raw message listed by the IMAP search: the per-UID `conn.fetch`
outcome and the `_parse_email_message` result (`none` = parse failure). -/
structure RawMsg where
  fetch_ok : Bool
  parsed : Option IncomingEmail
deriving Repr

/-- The state of the mailbox as seen through a successful connection. -/
structure Mailbox where
  search_ok : Bool
  raw_messages : List RawMsg
deriving Repr

/-- The IMAP environment of one fetch: credentials (`GMAIL_IMAP_USER`,
`GMAIL_IMAP_PASSWORD`) and the connection outcome — `none` models
`_connect` returning `None` on an authentication or connection failure. -/
structure ImapEnv where
  imap_user : String
  imap_password : String
  connection : Option Mailbox
deriving Repr

/-- The candidate filter of `fetch_replies`: the message carries an
`In-Reply-To` header, or its subject starts (after upper-casing) with a
reply/forward marker. -/
def isReplyCandidate (m : IncomingEmail) : Bool :=
  m.in_reply_to ≠ "" ||
    (m.subject ≠ "" &&
      (startsWithCh "RE:".data (pyUpper m.subject.data) ||
        startsWithCh "RE :".data (pyUpper m.subject.data) ||
        startsWithCh "FW:".data (pyUpper m.subject.data) ||
        startsWithCh "FWD:".data (pyUpper m.subject.data)))

/-- Embedding of `EmailReceiver.fetch_replies` / its inner `_fetch_sync`
(email_receiver.py).  Missing credentials, a failed connection and a failed
search each return the empty list (the error is only logged); otherwise each
listed message is fetched, parsed and kept when it passes the candidate
filter, with per-message failures skipped. -/
def fetch_replies (env : ImapEnv) : List IncomingEmail :=
  if env.imap_user = "" ∨ env.imap_password = "" then []
  else
    match env.connection with
    | none => []
    | some mbox =>
      if ¬mbox.search_ok then []
      else
        mbox.raw_messages.filterMap fun m =>
          if ¬m.fetch_ok then none
          else
            match m.parsed with
            | none => none
            | some p => if isReplyCandidate p then some p else none

/-- Decimal digit test, the regex class `\d` on ASCII input. -/
def isDig (c : Char) : Bool := '0' ≤ c && c ≤ '9'

/-- Case-insensitive character equality, via `pyLowerChar` (the semantics of
`re.IGNORECASE` on the scripts in use). -/
def ciEq (a b : Char) : Bool := pyLowerChar a = pyLowerChar b

/-- Case-insensitive prefix test. -/
def startsWithCI : List Char → List Char → Bool
  | [], _ => true
  | _ :: _, [] => false
  | a :: as, b :: bs => ciEq a b && startsWithCI as bs

/-- Case-insensitive substring containment. -/
def containsCI (pat : List Char) : List Char → Bool
  | [] => pat.isEmpty
  | c :: rest => startsWithCI pat (c :: rest) || containsCI pat rest

/-- Match of the regex `^On .+ wrote:` (IGNORECASE): the literal `On `
followed by at least one character and then ` wrote:` somewhere after it. -/
def onWroteMark (l : List Char) : Bool :=
  startsWithCI "On ".data l &&
    containsCI " wrote:".data ((l.drop 3).drop 1)

/-- Match of `\d{1,2}` at the head: one or two digits, returning the
remainders possible after the match (backtracking alternatives). -/
def dropDigits12 (l : List Char) : List (List Char) :=
  match l with
  | a :: rest =>
    if isDig a then
      match rest with
      | b :: rest2 => if isDig b then [rest2, rest] else [rest]
      | [] => [rest]
    else []
  | [] => []

/-- Match of `[\./]` at the head. -/
def dropDotSlash (l : List Char) : List (List Char) :=
  match l with
  | a :: rest => if a = '.' ∨ a = '/' then [rest] else []
  | [] => []

/-- Match of `\d{2,4}` at the head: two, three or four digits. -/
def dropDigits24 (l : List Char) : List (List Char) :=
  match l with
  | a :: b :: rest =>
    if isDig a && isDig b then
      match rest with
      | c :: rest2 =>
        if isDig c then
          match rest2 with
          | d :: rest3 => if isDig d then [rest3, rest2, rest] else [rest2, rest]
          | [] => [rest2, rest]
        else [rest]
      | [] => [rest]
    else []
  | _ => []

/-- After the date, the regex tail `.*<.*@.*>` must match: a `<`, later an
`@`, later a `>`, in that order. -/
def angleAtTail (l : List Char) : Bool :=
  match l with
  | [] => false
  | c :: rest =>
    if c = '<' then
      (rest.dropWhile (fun x => ¬(x = '@'))).any (fun x => x = '>') ||
        angleAtTail rest
    else angleAtTail rest

/-- Match of the regex `^\d{1,2}[\./]\d{1,2}[\./]\d{2,4}.*<.*@.*>`: a date
followed later by an email address in angle brackets. -/
def dateEmailMark (l : List Char) : Bool :=
  (dropDigits12 l).any fun r1 =>
    (dropDotSlash r1).any fun r2 =>
      (dropDigits12 r2).any fun r3 =>
        (dropDotSlash r3).any fun r4 =>
          (dropDigits24 r4).any fun r5 => angleAtTail r5

/-- Match of `^---+\s*(Original|Исходное)` (IGNORECASE): at least three
dashes, optional whitespace, then one of the two banner words. -/
def originalMark (l : List Char) : Bool :=
  match l with
  | '-' :: '-' :: '-' :: rest =>
    let afterDashes := rest.dropWhile (fun c => c = '-')
    let afterWs := afterDashes.dropWhile isPySpace
    startsWithCI "Original".data afterWs || startsWithCI "Исходное".data afterWs
  | _ => false

/-- Match of `^_{3,}`: at least three underscores. -/
def underscoreMark (l : List Char) : Bool :=
  match l with
  | a :: b :: c :: _ => a = '_' && b = '_' && c = '_'
  | _ => false

/-- Match of `^From:.*@` (IGNORECASE): the `From:` header with an `@` later
in the line. -/
def fromMark (l : List Char) : Bool :=
  startsWithCI "From:".data l && (l.drop 5).any (fun c => c = '@')

/-- The quote-boundary classification of one (stripped) line: the
`quote_markers` regex list of `extract_reply_text` (reply_processor.py). -/
def isQuoteMarker (l : List Char) : Bool :=
  startsWithCh ">".data l ||
    onWroteMark l ||
    dateEmailMark l ||
    originalMark l ||
    underscoreMark l ||
    fromMark l ||
    startsWithCI "Отправлено:".data l ||
    startsWithCI "Sent:".data l

/-- The line loop of `extract_reply_text`: skip blank lines while nothing has
been kept yet, latch `in_quote` at the first quote-boundary line, and keep
every earlier line. -/
def srLoop : List (List Char) → List (List Char) → Bool → List (List Char)
  | [], kept, _ => kept
  | line :: rest, kept, inQuote =>
    let stripped := pyStrip line
    if kept.isEmpty ∧ stripped.isEmpty then srLoop rest kept inQuote
    else
      let inQuote2 := inQuote || isQuoteMarker stripped
      if inQuote2 then srLoop rest kept inQuote2
      else srLoop rest (kept ++ [line]) inQuote2

/-- The trailing-blank-line removal (`while reply_lines and not
reply_lines[-1].strip(): reply_lines.pop()`). -/
def dropTrailingBlanks (ls : List (List Char)) : List (List Char) :=
  (ls.reverse.dropWhile fun l => (pyStrip l).isEmpty).reverse

/-- The placeholder returned for an empty result. -/
def emptyPlaceholder : String := "(текст отсутствует)"

/-- Embedding of `extract_reply_text` (reply_processor.py): split into lines,
run the quote-stripping loop, drop trailing blank lines, join and strip; an
empty input or an empty result yields the fixed placeholder. -/
def extract_reply_text (full_text : String) : String :=
  if full_text = "" then emptyPlaceholder
  else
    let lines := splitCh '\n' full_text.data
    let kept := dropTrailingBlanks (srLoop lines [] false)
    let result := pyStrip (joinCh '\n' kept)
    if result.isEmpty then emptyPlaceholder else String.mk result

/-- The category keyword test of correlation step 1 (email_receiver.py,
`fetch_unprocessed_replies`): the `if/elif` chain comparing
`email_obj.email_type.value` against keywords of the lower-cased subject.
The `docsinbox` branch accepts the generic «настройк» keyword only when
«роуминг» is absent from the subject. -/
def typeMatches (et : EmailType) (subjLower : List Char) : Bool :=
  match et with
  | .roaming => containsSub "роуминг".data subjLower
  | .sb_check =>
    containsSub "сб".data subjLower || containsSub "проверк".data subjLower
  | .docsinbox =>
    containsSub "docsinbox".data subjLower ||
      (containsSub "настройк".data subjLower &&
        !containsSub "роуминг".data subjLower)
  | .documents => containsSub "документ".data subjLower

/-- The `hasattr(email_obj, 'tracking_code')` probe of email_receiver.py,
evaluated against the committed `SentEmail` model: the class declares no
such column and the only code that would set the attribute — the
`SentEmail(tracking_code=…)` constructor call in `save_sent_email` — raises
`TypeError` instead of producing an object, so the probe is `False` for
every row the program can hold. -/
def hasTrackingCodeAttr (_row : SentEmail) : Bool := false

/-- The `code_to_emails[code]` bucket: rows pass the guard
`hasattr(email_obj, 'tracking_code') and email_obj.tracking_code`.  On the
committed model the `hasattr` conjunct short-circuits to `False` for every
row, so every bucket is empty and correlation step 1 is dead code. -/
def entriesForCode (pending : List SentEmail) (_code : String) :
    List SentEmail :=
  pending.filter fun e => hasTrackingCodeAttr e

/-- Every `code_to_emails` bucket of the committed program is empty. -/
theorem entriesForCode_eq_nil (pending : List SentEmail) (code : String) :
    entriesForCode pending code = [] := by
  simp [entriesForCode, hasTrackingCodeAttr]

/-- Correlation of a single inbound message against the pending rows
(email_receiver.py, `fetch_unprocessed_replies` loop body): step 1 matches by
tracking code and category keyword with a fall-back to the first
not-yet-consumed row of the bucket; step 2 by `In-Reply-To`; step 3 by the
`References` chain.  Returns the matched outbound `message_id` and the
tracking code recorded with the match (`none` for steps 2 and 3). -/
def correlateOne (pending : List SentEmail) (matchedIds : List String)
    (r : IncomingEmail) : Option (String × Option String) :=
  let subjLower := pyLower r.subject.data
  let step1 : Option (String × Option String) :=
    match extract_tracking_code r.subject with
    | some code =>
      let entries := entriesForCode pending code
      if entries.isEmpty then none
      else
        match entries.find? (fun e =>
            !(matchedIds.contains e.message_id) &&
              typeMatches e.email_type subjLower) with
        | some e => some (e.message_id, some code)
        | none =>
          match entries.find? (fun e => !(matchedIds.contains e.message_id)) with
          | some e => some (e.message_id, some code)
          | none => none
    | none => none
  match step1 with
  | some m => some m
  | none =>
    if r.in_reply_to ≠ "" ∧ pending.any (fun e => e.message_id = r.in_reply_to)
    then some (r.in_reply_to, none)
    else
      match r.references.find? (fun ref =>
          pending.any fun e => e.message_id = ref) with
      | some ref => some (ref, none)
      | none => none

/-- An inbound message annotated with its match, as
`fetch_unprocessed_replies` mutates `matched_message_id` and
`matched_tracking_code` onto the reply object before collecting it. -/
structure MatchedReply where
  reply : IncomingEmail
  matched_message_id : String
  matched_tracking_code : Option String
deriving DecidableEq, Repr

/-- The main loop of `fetch_unprocessed_replies`: skip already-processed
inbound ids, correlate, and collect a reply only when its matched outbound
id has not been consumed in this run, adding it to `matched_message_ids`. -/
def correlateLoop (pending : List SentEmail) (processed : List String) :
    List String → List IncomingEmail → List MatchedReply
  | _, [] => []
  | matchedIds, r :: rs =>
    if processed.contains r.message_id then
      correlateLoop pending processed matchedIds rs
    else
      match correlateOne pending matchedIds r with
      | some (m, code) =>
        if matchedIds.contains m then correlateLoop pending processed matchedIds rs
        else ⟨r, m, code⟩ :: correlateLoop pending processed (m :: matchedIds) rs
      | none => correlateLoop pending processed matchedIds rs

/-- Embedding of `EmailReceiver.fetch_unprocessed_replies`
(email_receiver.py): the two database queries are the explicit inputs —
`pending` is the result of `SELECT … WHERE reply_received = False` (in
query order) and `processed` the stored `reply_message_id` values of
already-answered rows; `all_replies` is what `fetch_replies` returned.
Either list being empty short-circuits to no matches. -/
def fetch_unprocessed_replies (pending : List SentEmail)
    (processed : List String) (all_replies : List IncomingEmail) :
    List MatchedReply :=
  if all_replies.isEmpty then []
  else if pending.isEmpty then []
  else correlateLoop pending processed [] all_replies

/-! Helper lemmas about the ledger update. -/

theorem updReply_message_id (r : Option String) (now : Nat) (row : SentEmail) :
    (updReply r now row).message_id = row.message_id := rfl

theorem updReply_idem (r : Option String) (t : Nat) (row : SentEmail) :
    updReply r t (updReply r t row) = updReply r t row := by
  cases r with
  | none => rfl
  | some s =>
    by_cases hs : s = "" <;> simp [updReply, hs]

theorem filter_map_id_pres (mid : String) (g : SentEmail → SentEmail)
    (hg : ∀ x, (g x).message_id = x.message_id) (l : List SentEmail) :
    (l.map g).filter (fun row => row.message_id = mid) =
      (l.filter (fun row => row.message_id = mid)).map g := by
  induction l with
  | nil => rfl
  | cons a as ih =>
    by_cases ha : a.message_id = mid <;>
      simp [List.filter_cons, hg, ha, ih]

/-- Claim C10: looking up a protocol identifier that has no ledger row makes
`mark_reply_received` return `False` and leave every ledger row untouched. -/
theorem mark_reply_received_not_found (l : List SentEmail) (mid : String)
    (r : Option String) (t : Nat) (h : ∀ row ∈ l, row.message_id ≠ mid) :
    mark_reply_received l mid r t = (false, l) := by
  have hf : l.filter (fun row => row.message_id = mid) = [] := by
    simp only [List.filter_eq_nil_iff, decide_eq_true_eq]
    exact h
  simp only [mark_reply_received, hf]

/-- Witness for C10 at a concrete ledger and identifier. -/
theorem mark_reply_received_not_found_witness :
    mark_reply_received
        [{ message_id := "<a1.sb_check.123@mnogolososya.ru>"
           supplier_inn := "123", supplier_name := "n"
           email_type := .sb_check, recipient := "r", cc_recipients := none
           subject := "s", sent_at := 0, telegram_user_id := 1
           reply_received := false, reply_received_at := none
           reply_message_id := none }]
        "<zz.roaming.999@mnogolososya.ru>" (some "<re>") 5 =
      (false,
        [{ message_id := "<a1.sb_check.123@mnogolososya.ru>"
           supplier_inn := "123", supplier_name := "n"
           email_type := .sb_check, recipient := "r", cc_recipients := none
           subject := "s", sent_at := 0, telegram_user_id := 1
           reply_received := false, reply_received_at := none
           reply_message_id := none }]) :=
  mark_reply_received_not_found _ _ _ _ (by decide)

/-- Claim C3: with the spec's shared timestamp `t`, marking the same reply
twice leaves the ledger exactly as after the first call. -/
theorem mark_reply_received_idempotent (l : List SentEmail) (mid : String)
    (r : Option String) (t : Nat) :
    (mark_reply_received (mark_reply_received l mid r t).2 mid r t).2 =
      (mark_reply_received l mid r t).2 := by
  rcases hf : l.filter (fun row => row.message_id = mid) with _ | ⟨a, _ | ⟨b, bs⟩⟩
  · simp only [mark_reply_received, hf]
  · have hg : ∀ x : SentEmail,
        ((fun row => if row.message_id = mid then updReply r t row else row)
            x).message_id = x.message_id := by
      intro x
      by_cases hx : x.message_id = mid <;> simp [hx, updReply_message_id]
    simp only [mark_reply_received, hf,
      filter_map_id_pres mid _ hg l, List.map_map, List.map_cons, List.map_nil]
    apply List.map_congr_left
    intro x _
    by_cases hx : x.message_id = mid <;>
      simp [Function.comp, hx, updReply_message_id, updReply_idem]
  · simp only [mark_reply_received, hf]

/-- A sample ledger row used in concrete counterexamples. -/
def sampleRow : SentEmail :=
  { message_id := "<a1b2c3.docsinbox.7704123456@mnogolososya.ru>"
    supplier_inn := "7704123456", supplier_name := "ООО Ромашка"
    email_type := .docsinbox, recipient := "m.chernykh@docsinbox.ru"
    cc_recipients := none, subject := "[ML-ABCDE] Настройка поставщика"
    sent_at := 0, telegram_user_id := 42
    reply_received := false, reply_received_at := none
    reply_message_id := none }

/-- Counterexample to claim C2: after storing reply `<r1@x>`, a second
`mark_reply_received` with the different reply `<r2@x>` is not rejected — it
returns `True` and the stored reply identifier becomes `<r2@x>`. -/
theorem mark_reply_received_overwrites_cx :
    ((mark_reply_received
          (mark_reply_received [sampleRow] sampleRow.message_id
              (some "<r1@x>") 1).2
          sampleRow.message_id (some "<r2@x>") 2).1 = true) ∧
      ((mark_reply_received
            (mark_reply_received [sampleRow] sampleRow.message_id
                (some "<r1@x>") 1).2
            sampleRow.message_id (some "<r2@x>") 2).2.map
          (fun row => row.reply_message_id) = [some "<r2@x>"]) := by
  constructor <;> rfl

/-- Claim C2 as amended: a second `mark_reply_received` on the same outbound
identifier with a different, truthy reply identifier `r2` succeeds (returns
`True`) and silently overwrites the stored reply identifier with `r2`; no
conflict is surfaced. -/
theorem mark_reply_received_overwrite (l : List SentEmail) (mid r1 r2 : String)
    (t1 t2 : Nat) (row0 : SentEmail) (h2 : r2 ≠ "")
    (hf : l.filter (fun row => row.message_id = mid) = [row0]) :
    (mark_reply_received (mark_reply_received l mid (some r1) t1).2 mid
          (some r2) t2).1 = true ∧
      ((mark_reply_received (mark_reply_received l mid (some r1) t1).2 mid
            (some r2) t2).2.filter (fun row => row.message_id = mid)).map
          (fun row => row.reply_message_id) = [some r2] := by
  have hg1 : ∀ x : SentEmail,
      ((fun row => if row.message_id = mid then updReply (some r1) t1 row
          else row) x).message_id = x.message_id := by
    intro x
    by_cases hx : x.message_id = mid <;> simp [hx, updReply_message_id]
  have hg2 : ∀ x : SentEmail,
      ((fun row => if row.message_id = mid then updReply (some r2) t2 row
          else row) x).message_id = x.message_id := by
    intro x
    by_cases hx : x.message_id = mid <;> simp [hx, updReply_message_id]
  have hrow0 : row0.message_id = mid := by
    have : row0 ∈ l.filter (fun row => row.message_id = mid) := by
      rw [hf]; exact List.mem_singleton_self _
    simpa using (List.of_mem_filter this)
  simp only [mark_reply_received, hf, filter_map_id_pres mid _ hg1,
    filter_map_id_pres mid _ hg2, List.map_cons, List.map_nil]
  constructor
  · trivial
  · simp [hrow0, updReply_message_id, updReply, h2]

/-- Witness for the amended C2 at the concrete sample ledger. -/
theorem mark_reply_received_overwrite_witness :
    (mark_reply_received
          (mark_reply_received [sampleRow] sampleRow.message_id
              (some "<r1@x>") 1).2
          sampleRow.message_id (some "<r2@x>") 2).1 = true ∧
      ((mark_reply_received
            (mark_reply_received [sampleRow] sampleRow.message_id
                (some "<r1@x>") 1).2
            sampleRow.message_id (some "<r2@x>") 2).2.filter
            (fun row => row.message_id = sampleRow.message_id)).map
          (fun row => row.reply_message_id) = [some "<r2@x>"] :=
  mark_reply_received_overwrite [sampleRow] sampleRow.message_id
    "<r1@x>" "<r2@x>" 1 2 sampleRow (by decide) (by decide)

/-- An IMAP environment with valid credentials whose connection attempt
fails (`_connect` returns `None`). -/
def envConnFail : ImapEnv :=
  { imap_user := "bot@mnogolososya.ru", imap_password := "pw",
    connection := none }

/-- An IMAP environment with valid credentials, a successful connection and
a genuinely empty mailbox. -/
def envEmptyBox : ImapEnv :=
  { imap_user := "bot@mnogolososya.ru", imap_password := "pw",
    connection := some { search_ok := true, raw_messages := [] } }

/-- Counterexample to claim C4: on a connection failure `fetch_replies`
returns the bare empty list, which is exactly the value returned for a
successful fetch of an empty mailbox — the caller receives no
distinguishable error. -/
theorem fetch_replies_indistinguishable_cx :
    fetch_replies envConnFail = [] ∧
      fetch_replies envConnFail = fetch_replies envEmptyBox :=
  ⟨rfl, rfl⟩

/-- Claim C4 as amended: whenever the IMAP connection or authentication
fails, `fetch_replies` returns the empty list — never partial data — but the
failure is only logged: the return value carries no error and equals that of
an empty mailbox. -/
theorem fetch_replies_conn_failure_empty (env : ImapEnv)
    (h : env.connection = none) : fetch_replies env = [] := by
  unfold fetch_replies
  rw [h]
  split <;> rfl

/-- Witness for the amended C4 at the concrete failing environment. -/
theorem fetch_replies_conn_failure_empty_witness :
    envConnFail.connection = none ∧ fetch_replies envConnFail = [] :=
  ⟨rfl, fetch_replies_conn_failure_empty envConnFail rfl⟩

/-- The `DEFAULT_CC` constant of email_service.py. -/
def DEFAULT_CC : List String :=
  ["oz@mnogolososya.ru", "pgadyaka@mnogolososya.ru",
   "bkhatchukaev@mnogolososya.ru", "karina.petrakova@mnogolososya.ru",
   "aprokudin@mnogolososya.ru"]

/-- A configuration with sandbox mode enabled and the default diagnostic
recipient (`TEST_EMAIL`). -/
def cfgTestMode : EmailConfig :=
  { smtp_email := "bot@mnogolososya.ru", smtp_password := "pw",
    test_mode := true, test_email := "alxprokudin@gmail.com" }

/-- The registration-campaign message of `create_email_2_docsinbox` at a
sample supplier (body abbreviated). -/
def emailDocsinbox : EmailMessage :=
  { to_addrs := ["m.chernykh@docsinbox.ru"], cc := DEFAULT_CC,
    subject := "[ML-ABCDE] Настройка поставщика для МЛ - ООО Ромашка 7704123456",
    body := "Добрый день! Прошу выполнить настройки нового партнера." }

/-- Counterexample to claim C1: in sandbox mode the transport recipients do
collapse to the diagnostic address with CC suppressed, but the Outbound
Ledger records nothing at all — `save_sent_email` passes the undeclared
`tracking_code` keyword to the `SentEmail` constructor, the resulting
`TypeError` is caught and turned into `False`, and no row carrying the
intended recipient (or any recipient) is ever written. -/
theorem send_and_save_test_mode_cx :
    (send_and_save cfgTestMode true "a1b2c3d4e5f6" emailDocsinbox "docsinbox"
          "ML-ABCDE" "7704123456" "ООО Ромашка" 42 0).transport_recipients =
        some ["alxprokudin@gmail.com"] ∧
      (send_and_save cfgTestMode true "a1b2c3d4e5f6" emailDocsinbox
          "docsinbox" "ML-ABCDE" "7704123456" "ООО Ромашка" 42
          0).saved_row = none :=
  ⟨rfl, rfl⟩

/-- Claim C1 as amended: with sandbox mode on and SMTP configured, every
message of the registration flow is transported to the single diagnostic
recipient with CC suppressed; the Outbound Ledger, however, records nothing:
the registration flow's `save_sent_email` always fails (its
`SentEmail(tracking_code=…)` call raises `TypeError` because the committed
model declares no such column), so neither the original nor the diagnostic
recipient is ever recorded. -/
theorem send_and_save_test_mode (cfg : EmailConfig) (smtp_ok : Bool)
    (uid : String) (email : EmailMessage) (etype : String)
    (tracking inn name : String) (tg : Int) (ts : Nat)
    (hmode : cfg.test_mode = true) (hcfg : check_smtp_config cfg = true) :
    (send_and_save cfg smtp_ok uid email etype tracking inn name tg
          ts).transport_recipients = some [cfg.test_email] ∧
      (send_and_save cfg smtp_ok uid email etype tracking inn name tg
          ts).saved_row = none := by
  have hcfg2 : (¬check_smtp_config cfg) = False := by simp [hcfg]
  constructor
  · simp [send_and_save, send_email, hcfg2, hmode]
  · simp only [send_and_save, send_email, save_sent_email]
    rcases emailTypeOfString etype with _ | _ <;> split <;> simp

/-- Witness for the amended C1 at the concrete sandbox configuration. -/
theorem send_and_save_test_mode_witness :
    (send_and_save cfgTestMode true "a1b2c3d4e5f6" emailDocsinbox "docsinbox"
          "ML-ABCDE" "7704123456" "ООО Ромашка" 42 0).transport_recipients =
        some [cfgTestMode.test_email] ∧
      (send_and_save cfgTestMode true "a1b2c3d4e5f6" emailDocsinbox
          "docsinbox" "ML-ABCDE" "7704123456" "ООО Ромашка" 42
          0).saved_row = none :=
  send_and_save_test_mode cfgTestMode true "a1b2c3d4e5f6" emailDocsinbox
    "docsinbox" "ML-ABCDE" "7704123456" "ООО Ромашка" 42 0 rfl rfl

/-! Lemmas about `splitCh`. -/

theorem splitCh_ne_nil (sep : Char) (l : List Char) : splitCh sep l ≠ [] := by
  induction l with
  | nil => simp [splitCh]
  | cons c rest ih =>
    unfold splitCh
    by_cases hc : c = sep
    · simp [hc]
    · simp only [hc, if_false]
      rcases h : splitCh sep rest with _ | ⟨g, gs⟩
      · simp
      · simp

theorem splitCh_no_sep (sep : Char) (l : List Char)
    (h : ∀ c ∈ l, c ≠ sep) : splitCh sep l = [l] := by
  induction l with
  | nil => rfl
  | cons c rest ih =>
    have hc : c ≠ sep := h c (List.mem_cons_self c rest)
    have hrest : splitCh sep rest = [rest] :=
      ih fun x hx => h x (List.mem_cons_of_mem c hx)
    unfold splitCh
    simp [hc, hrest]

theorem splitCh_append_sep (sep : Char) (xs ys : List Char)
    (h : ∀ c ∈ xs, c ≠ sep) :
    splitCh sep (xs ++ sep :: ys) = xs :: splitCh sep ys := by
  induction xs with
  | nil => simp [splitCh]
  | cons c rest ih =>
    have hc : c ≠ sep := h c (List.mem_cons_self c rest)
    have hrest := ih fun x hx => h x (List.mem_cons_of_mem c hx)
    rw [List.cons_append]
    conv_lhs => unfold splitCh
    simp only [hc, if_false, hrest]

/-- Characters that break the `parse_message_id` format: the separators of
the wire-level protocol-identifier contract. -/
def isSepChar (c : Char) : Prop := c = '.' ∨ c = '@' ∨ c = '<' ∨ c = '>'

instance (c : Char) : Decidable (isSepChar c) := by
  unfold isSepChar; infer_instance

/-- Claim C6 as amended: the protocol-identifier round-trip
`parse_message_id (generate_message_id uid t i) = (t, i)` holds whenever the
random component, the category and the correlation key contain none of the
separator characters `.`, `@`, `<`, `>` (as is the case for the hex random
component, the four category names and digit-string INNs). -/
theorem parse_generate_message_id (uid etype inn : String)
    (hu : ∀ c ∈ uid.data, ¬isSepChar c) (ht : ∀ c ∈ etype.data, ¬isSepChar c)
    (hi : ∀ c ∈ inn.data, ¬isSepChar c) :
    parse_message_id (generate_message_id uid etype inn) =
      some (etype, inn) := by
  have hdata : (generate_message_id uid etype inn).data =
      '<' :: (uid.data ++ '.' :: (etype.data ++ '.' ::
        (inn.data ++ ("@mnogolososya.ru".data ++ ['>'])))) := by
    simp [generate_message_id, String.data_append]
  have hbody : ∀ c ∈ uid.data ++ '.' :: (etype.data ++ '.' :: inn.data),
      ¬isAngle c := by
    intro c hc
    rcases List.mem_append.mp hc with h1 | h1
    · have := hu c h1; simp [isSepChar] at this; simp [isAngle, this]
    · rcases List.mem_cons.mp h1 with h2 | h2
      · simp [h2, isAngle]
      · rcases List.mem_append.mp h2 with h3 | h3
        · have := ht c h3; simp [isSepChar] at this; simp [isAngle, this]
        · rcases List.mem_cons.mp h3 with h4 | h4
          · simp [h4, isAngle]
          · have := hi c h4; simp [isSepChar] at this; simp [isAngle, this]
  have hclean : stripAngles (generate_message_id uid etype inn).data =
      (uid.data ++ '.' :: (etype.data ++ '.' :: inn.data)) ++
        "@mnogolososya.ru".data := by
    rw [hdata]
    unfold stripAngles
    have h1 : List.dropWhile isAngle
        ('<' :: (uid.data ++ '.' :: (etype.data ++ '.' ::
          (inn.data ++ ("@mnogolososya.ru".data ++ ['>']))))) =
        uid.data ++ '.' :: (etype.data ++ '.' ::
          (inn.data ++ ("@mnogolososya.ru".data ++ ['>']))) := by
      rw [List.dropWhile_cons_of_pos (by simp [isAngle])]
      rcases hud : uid.data with _ | ⟨u0, us⟩
      · simp [List.dropWhile_cons_of_neg, isAngle]
      · have : ¬isAngle u0 := by
          have := hu u0 (by rw [hud]; exact List.mem_cons_self u0 us)
          simp [isSepChar] at this; simp [isAngle, this]
        simp [List.dropWhile_cons_of_neg this]
    rw [h1]
    have hassoc : uid.data ++ '.' :: (etype.data ++ '.' ::
        (inn.data ++ ("@mnogolososya.ru".data ++ ['>']))) =
        ((uid.data ++ '.' :: (etype.data ++ '.' :: inn.data)) ++
          "@mnogolososya.ru".data) ++ ['>'] := by
      simp
    rw [hassoc, List.rdropWhile_concat_pos _ _ _ (by simp [isAngle])]
    apply List.rdropWhile_eq_self_iff.mpr
    intro hne
    rw [List.getLast_append_right (by decide)]
    decide
  have hat : splitCh '@'
      ((uid.data ++ '.' :: (etype.data ++ '.' :: inn.data)) ++
        "@mnogolososya.ru".data) =
      (uid.data ++ '.' :: (etype.data ++ '.' :: inn.data)) ::
        splitCh '@' "mnogolososya.ru".data := by
    have : ("@mnogolososya.ru".data : List Char) =
        '@' :: "mnogolososya.ru".data := by decide
    rw [this]
    apply splitCh_append_sep
    intro c hc
    rcases List.mem_append.mp hc with h1 | h1
    · have := hu c h1; simp [isSepChar] at this; exact this.2.1
    · rcases List.mem_cons.mp h1 with h2 | h2
      · simp [h2]
      · rcases List.mem_append.mp h2 with h3 | h3
        · have := ht c h3; simp [isSepChar] at this; exact this.2.1
        · rcases List.mem_cons.mp h3 with h4 | h4
          · simp [h4]
          · have := hi c h4; simp [isSepChar] at this; exact this.2.1
  have hdot : splitCh '.'
      (uid.data ++ '.' :: (etype.data ++ '.' :: inn.data)) =
      [uid.data, etype.data, inn.data] := by
    rw [splitCh_append_sep '.' _ _
        (fun c hc => by have := hu c hc; simp [isSepChar] at this; exact this.1),
      splitCh_append_sep '.' _ _
        (fun c hc => by have := ht c hc; simp [isSepChar] at this; exact this.1),
      splitCh_no_sep '.' _
        (fun c hc => by have := hi c hc; simp [isSepChar] at this; exact this.1)]
  unfold parse_message_id
  simp only [hclean, hat, hdot]

/-- Counterexample to claim C6 as stated: for the `roaming` category and the
correlation key `77.0123456` (a key containing a dot), the round-trip
truncates the key — `parse_message_id` returns `(roaming, 77)`. -/
theorem parse_generate_message_id_cx :
    parse_message_id
        (generate_message_id "a1b2c3d4e5f6" "roaming" "77.0123456") =
      some ("roaming", "77") ∧
      parse_message_id
          (generate_message_id "a1b2c3d4e5f6" "roaming" "77.0123456") ≠
        some ("roaming", "77.0123456") := by
  constructor
  · rfl
  · decide

/-- Witness for the amended C6 at concrete hex uid, category and INN. -/
theorem parse_generate_message_id_witness :
    parse_message_id
        (generate_message_id "a1b2c3d4e5f6" "roaming" "7704123456") =
      some ("roaming", "7704123456") :=
  parse_generate_message_id "a1b2c3d4e5f6" "roaming" "7704123456"
    (by decide) (by decide) (by decide)

/-! Lemmas about the quote stripper. -/

theorem joinCh_splitCh (sep : Char) (l : List Char) :
    joinCh sep (splitCh sep l) = l := by
  induction l with
  | nil => rfl
  | cons c rest ih =>
    obtain ⟨g, gs, hsplit⟩ : ∃ g gs, splitCh sep rest = g :: gs := by
      rcases h : splitCh sep rest with _ | ⟨g, gs⟩
      · exact absurd h (splitCh_ne_nil sep rest)
      · exact ⟨g, gs, rfl⟩
    by_cases hc : c = sep
    · conv_lhs => unfold splitCh
      simp only [hc, if_true, hsplit]
      subst hc
      rcases gs with _ | ⟨g2, gs2⟩
      · simp only [joinCh, List.nil_append]
        rw [hsplit] at ih
        simpa [joinCh] using ih
      · simp only [joinCh, List.nil_append]
        rw [hsplit] at ih
        simpa [joinCh] using ih
    · conv_lhs => unfold splitCh
      simp only [hc, if_false, hsplit]
      rcases gs with _ | ⟨g2, gs2⟩
      · simp only [joinCh]
        rw [hsplit] at ih
        simp only [joinCh] at ih
        rw [ih]
      · simp only [joinCh, List.cons_append]
        rw [hsplit] at ih
        simp only [joinCh] at ih
        rw [ih]

theorem srLoop_no_marker (lines kept : List (List Char)) (hk : kept ≠ [])
    (h : ∀ l ∈ lines, isQuoteMarker (pyStrip l) = false) :
    srLoop lines kept false = kept ++ lines := by
  induction lines generalizing kept with
  | nil => simp [srLoop]
  | cons line rest ih =>
    have hline : isQuoteMarker (pyStrip line) = false :=
      h line (List.mem_cons_self line rest)
    have hrest : ∀ l ∈ rest, isQuoteMarker (pyStrip l) = false :=
      fun l hl => h l (List.mem_cons_of_mem line hl)
    unfold srLoop
    simp only [List.isEmpty_iff, hk, false_and, if_false, hline,
      Bool.false_or, Bool.or_false]
    rw [ih (kept ++ [line]) (by simp) hrest]
    simp

theorem dropTrailingBlanks_eq_self (ls : List (List Char))
    (h : ∃ g, ls.getLast? = some g ∧ (pyStrip g).isEmpty = false) :
    dropTrailingBlanks ls = ls := by
  obtain ⟨g, hg, hne⟩ := h
  unfold dropTrailingBlanks
  have hrev : ls.reverse.head? = some g := by
    rw [List.head?_reverse]; exact hg
  rcases hrevls : ls.reverse with _ | ⟨x, xs⟩
  · simp [hrevls] at hrev
  · rw [hrevls] at hrev
    have hx : x = g := by simpa using hrev
    rw [List.dropWhile_cons_of_neg (by simp [hx, hne])]
    rw [← hrevls, List.reverse_reverse]

theorem pyStrip_eq_nil_all_space (l : List Char) (h : pyStrip l = []) :
    ∀ x ∈ l, isPySpace x = true := by
  intro x hx
  have h2 : ∀ y ∈ (l.dropWhile isPySpace), isPySpace y = true :=
    List.rdropWhile_eq_nil_iff.mp h
  have hsplit := List.takeWhile_append_dropWhile (p := isPySpace) (l := l)
  rw [← hsplit] at hx
  rcases List.mem_append.mp hx with h3 | h3
  · exact List.mem_takeWhile_imp h3
  · exact h2 x h3

theorem splitCh_head_shape (sep c : Char) (rest : List Char) (hc : c ≠ sep) :
    ∃ g gs, splitCh sep (c :: rest) = (c :: g) :: gs := by
  obtain ⟨g, gs, hsplit⟩ : ∃ g gs, splitCh sep rest = g :: gs := by
    rcases h : splitCh sep rest with _ | ⟨g, gs⟩
    · exact absurd h (splitCh_ne_nil sep rest)
    · exact ⟨g, gs, rfl⟩
  refine ⟨g, gs, ?_⟩
  conv_lhs => unfold splitCh
  simp [hc, hsplit]

theorem splitCh_getLast (sep : Char) :
    ∀ (l : List Char) (c : Char), c ≠ sep → l.getLast? = some c →
      ∃ g, (splitCh sep l).getLast? = some g ∧ g.getLast? = some c := by
  intro l
  induction l with
  | nil => intro c _ h; simp at h
  | cons a rest ih =>
    intro c hc hlast
    rcases hrest : rest with _ | ⟨b, bs⟩
    · subst hrest
      have ha : a = c := by simpa using hlast
      subst ha
      refine ⟨[a], ?_, by simp⟩
      conv_lhs => rw [show splitCh sep [a] = [[a]] from by
        unfold splitCh
        simp [hc, splitCh]]
      simp
    · subst hrest
      have hlast2 : (b :: bs).getLast? = some c := by
        rwa [List.getLast?_cons_cons] at hlast
      obtain ⟨g, hg, hgc⟩ := ih c hc hlast2
      obtain ⟨g0, gs0, hsplit⟩ : ∃ g0 gs0,
          splitCh sep (b :: bs) = g0 :: gs0 := by
        rcases h : splitCh sep (b :: bs) with _ | ⟨g0, gs0⟩
        · exact absurd h (splitCh_ne_nil sep (b :: bs))
        · exact ⟨g0, gs0, rfl⟩
      by_cases ha : a = sep
      · refine ⟨g, ?_, hgc⟩
        conv_lhs => unfold splitCh
        simp only [ha, if_true]
        rw [hsplit] at hg ⊢
        rwa [List.getLast?_cons_cons]
      · refine ⟨?_, ?_, ?_⟩
        case _ =>
          exact if gs0.isEmpty then a :: g0 else g
        · conv_lhs => unfold splitCh
          simp only [ha, if_false, hsplit]
          rcases gs0 with _ | ⟨g1, gs1⟩
          · simp
          · rw [hsplit] at hg
            rw [List.getLast?_cons_cons] at hg ⊢
            simpa using hg
        · rcases gs0 with _ | ⟨g1, gs1⟩
          · simp only [List.isEmpty_nil, if_true]
            rw [hsplit] at hg
            have hg0 : g0 = g := by simpa using hg
            have hg0c : g0.getLast? = some c := by rw [hg0]; exact hgc
            rcases g0 with _ | ⟨y, ys⟩
            · simp at hg0c
            · rw [List.getLast?_cons_cons]
              exact hg0c
          · simpa using hgc

/-- Claim C8 as amended: `extract_reply_text` is the identity on a body that
contains no quote-boundary line, *provided* the body neither starts nor ends
with whitespace (the code drops leading blank lines, pops trailing blank
lines and strips the joined result, so surrounding whitespace never
survives). -/
theorem extract_reply_text_id (body : String) (h0 : body ≠ "")
    (h1 : pyStrip body.data = body.data)
    (h2 : ∀ line ∈ splitCh '\n' body.data,
      isQuoteMarker (pyStrip line) = false) :
    extract_reply_text body = body := by
  have hdne : body.data ≠ [] := by
    intro hX
    exact h0 (String.ext (hX.trans rfl))
  have hdrop : body.data.dropWhile isPySpace = body.data := by
    have hsuf : body.data.dropWhile isPySpace <:+ body.data :=
      List.dropWhile_suffix isPySpace
    have hpre : (body.data.dropWhile isPySpace).rdropWhile isPySpace <+:
        body.data.dropWhile isPySpace := List.rdropWhile_prefix _ _
    have hlen1 : body.data.length ≤
        (body.data.dropWhile isPySpace).length := by
      have := hpre.length_le
      rw [show (body.data.dropWhile isPySpace).rdropWhile isPySpace =
        body.data from h1] at this
      exact this
    exact hsuf.eq_of_length (Nat.le_antisymm hsuf.length_le hlen1)
  have hrdrop : body.data.rdropWhile isPySpace = body.data := by
    have hh := h1
    unfold pyStrip at hh
    rwa [hdrop] at hh
  have hlastchar : ¬isPySpace (body.data.getLast hdne) = true :=
    List.rdropWhile_eq_self_iff.mp hrdrop hdne
  rcases hd : body.data with _ | ⟨c, t⟩
  · exact absurd hd hdne
  · have hheadchar : ¬isPySpace c = true := by
      have h := List.dropWhile_eq_self_iff.mp hdrop
      rw [hd] at h
      simpa using h (by simp)
    have hcnl : c ≠ '\n' := by
      intro hX
      exact hheadchar (by simp [hX, isPySpace])
    obtain ⟨g, gs, hlines⟩ := splitCh_head_shape '\n' c t hcnl
    have hfirstline : ((pyStrip (c :: g)).isEmpty = true) → False := by
      intro hX
      have := pyStrip_eq_nil_all_space (c :: g)
        (List.isEmpty_iff.mp hX) c (by simp)
      exact hheadchar this
    have hloop : srLoop (splitCh '\n' body.data) [] false =
        splitCh '\n' body.data := by
      rw [hd, hlines]
      unfold srLoop
      rw [if_neg (by
        intro hX
        exact hfirstline hX.2)]
      have hm1 : isQuoteMarker (pyStrip (c :: g)) = false := by
        apply h2
        rw [hd, hlines]
        simp
      simp only [hm1, Bool.false_or, Bool.or_false, if_false]
      rcases gs with _ | ⟨g2, gs2⟩
      · simp [srLoop]
      · have hmrest : ∀ l ∈ g2 :: gs2, isQuoteMarker (pyStrip l) = false := by
          intro l hl
          apply h2
          rw [hd, hlines]
          exact List.mem_cons_of_mem _ hl
        have hsr := srLoop_no_marker (g2 :: gs2) [c :: g] (by simp) hmrest
        simp [hsr]
    have hlast? : body.data.getLast? = some (body.data.getLast hdne) :=
      List.getLast?_eq_getLast body.data hdne
    have hlastnl : body.data.getLast hdne ≠ '\n' := by
      intro hX
      exact hlastchar (by simp [hX, isPySpace])
    obtain ⟨gl, hgl, hglc⟩ :=
      splitCh_getLast '\n' body.data (body.data.getLast hdne) hlastnl hlast?
    have hglne : (pyStrip gl).isEmpty = false := by
      rcases hE : (pyStrip gl).isEmpty with _ | _
      · rfl
      · exfalso
        have hmem : body.data.getLast hdne ∈ gl := by
          obtain ⟨hne2, heq2⟩ := List.mem_getLast?_eq_getLast
            (show body.data.getLast hdne ∈ gl.getLast? from hglc)
          rw [heq2]
          exact List.getLast_mem hne2
        exact hlastchar (pyStrip_eq_nil_all_space gl
          (List.isEmpty_iff.mp hE) _ hmem)
    have hdropT : dropTrailingBlanks (splitCh '\n' body.data) =
        splitCh '\n' body.data :=
      dropTrailingBlanks_eq_self _ ⟨gl, hgl, hglne⟩
    have hjoin : joinCh '\n' (splitCh '\n' body.data) = body.data :=
      joinCh_splitCh '\n' body.data
    have hres : (pyStrip body.data).isEmpty = false := by
      rw [h1]
      rcases hE : body.data.isEmpty with _ | _
      · rfl
      · exact absurd (List.isEmpty_iff.mp hE) hdne
    have hmk : String.mk body.data = body := rfl
    unfold extract_reply_text
    rw [if_neg h0]
    simp [hloop, hdropT, hjoin, h1, hres, hmk, hdne]

/-- Counterexample to claim C8 as stated: the body `"\nHi"` contains no
quote-boundary line, yet `extract_reply_text` returns `"Hi"` — the leading
blank line is not preserved. -/
theorem extract_reply_text_cx :
    (∀ line ∈ splitCh '\n' ("\nHi" : String).data,
        isQuoteMarker (pyStrip line) = false) ∧
      extract_reply_text "\nHi" = "Hi" ∧ ("Hi" : String) ≠ "\nHi" := by
  refine ⟨by decide, rfl, by decide⟩

/-- Witness for the amended C8 at a concrete two-line body without markers
or surrounding whitespace. -/
theorem extract_reply_text_id_witness :
    extract_reply_text "Thanks!\nAll good." = "Thanks!\nAll good." :=
  extract_reply_text_id "Thanks!\nAll good." (by decide) (by decide)
    (by decide)

/-! Correlator theorems. -/

/-- A pending campaign row of the committed model (which can carry no
tracking code). -/
def c5row (mid : String) (et : EmailType) : SentEmail :=
  { message_id := mid
    supplier_inn := "7704123456", supplier_name := "ООО Ромашка"
    email_type := et, recipient := "r", cc_recipients := none
    subject := "s", sent_at := 0, telegram_user_id := 42
    reply_received := false, reply_received_at := none
    reply_message_id := none }

/-- One pending row per category of one campaign. -/
def c5pending : List SentEmail :=
  [c5row "<m1.sb_check.7704123456@mnogolososya.ru>" .sb_check,
   c5row "<m2.docsinbox.7704123456@mnogolososya.ru>" .docsinbox,
   c5row "<m3.roaming.7704123456@mnogolososya.ru>" .roaming,
   c5row "<m4.documents.7704123456@mnogolososya.ru>" .documents]

/-- An inbound reply whose subject carries the campaign's bracketed code and
the localized roaming phrase, with no `In-Reply-To` or `References`. -/
def c5inbound : IncomingEmail :=
  { uid := "1", message_id := "<reply5@external>", in_reply_to := ""
    references := [], from_addr := "edi_request@skbkontur.ru"
    subject := "Re: [ML-ABCDE] Настройка роуминга", body_text := "ok" }

/-- Claim C5 (code bug): evaluating the committed program at the claim's
scenario — one pending row per category of one campaign and the inbound
subject `"Re: [ML-ABCDE] Настройка роуминга"` — yields *no* match at all,
in particular not the roaming entry: no ledger row can carry a tracking
code (the model omits the column and the only writer raises `TypeError`),
so `code_to_emails` is always empty and tracking-code correlation, the
receiver's self-documented primary search method, never executes. -/
theorem correlation_by_code_dead :
    fetch_unprocessed_replies c5pending [] [c5inbound] = [] := rfl

/-- A pending row sent later (it would be listed first by the query). -/
def c7rowNew : SentEmail :=
  { message_id := "<n1.docsinbox.7704123456@mnogolososya.ru>"
    supplier_inn := "7704123456", supplier_name := "ООО Ромашка"
    email_type := .docsinbox, recipient := "r", cc_recipients := none
    subject := "s", sent_at := 10, telegram_user_id := 42
    reply_received := false, reply_received_at := none
    reply_message_id := none }

/-- A pending row sent earlier (listed second by the query). -/
def c7rowOld : SentEmail :=
  { message_id := "<n2.docsinbox.7704123456@mnogolososya.ru>"
    supplier_inn := "7704123456", supplier_name := "ООО Ромашка"
    email_type := .docsinbox, recipient := "r", cc_recipients := none
    subject := "s", sent_at := 5, telegram_user_id := 42
    reply_received := false, reply_received_at := none
    reply_message_id := none }

/-- An inbound reply carrying a bracketed tracking code but no category
keyword, and no `In-Reply-To` or `References`. -/
def c7inbound : IncomingEmail :=
  { uid := "2", message_id := "<reply7@external>", in_reply_to := ""
    references := [], from_addr := "someone@external"
    subject := "Re: [ML-ABCDE] Вопрос", body_text := "?" }

/-- Claim C7 (code bug): evaluating the committed program at the claim's
scenario — pending entries of one campaign and an inbound subject carrying
the bracketed code but no category keyword — yields *no* match: the
keywordless fall-back (email_receiver.py lines 406–413) operates on a
`code_to_emails` bucket that is empty for every code, because no committed
ledger row can carry a tracking code, so neither the oldest nor any other
pending entry is ever selected. -/
theorem code_fallback_dead :
    fetch_unprocessed_replies [c7rowNew, c7rowOld] [] [c7inbound] = [] := rfl

/-- Invariant of the correlation loop: the matched outbound identifiers are
pairwise distinct, none of them was already consumed, and the collected
replies form a sublist of the inbound batch. -/
theorem correlateLoop_inv (pending : List SentEmail) (processed : List String) :
    ∀ (rs : List IncomingEmail) (matchedIds : List String),
      ((correlateLoop pending processed matchedIds rs).map
          (fun m => m.matched_message_id)).Nodup ∧
        (∀ x ∈ (correlateLoop pending processed matchedIds rs).map
            (fun m => m.matched_message_id), x ∉ matchedIds) ∧
        ((correlateLoop pending processed matchedIds rs).map
            (fun m => m.reply)).Sublist rs := by
  intro rs
  induction rs with
  | nil => intro matchedIds; simp [correlateLoop]
  | cons r rest ih =>
    intro matchedIds
    unfold correlateLoop
    by_cases hp : processed.contains r.message_id = true
    · simp only [hp, if_true]
      obtain ⟨ih1, ih2, ih3⟩ := ih matchedIds
      exact ⟨ih1, ih2, ih3.trans (List.sublist_cons_self r rest)⟩
    · simp only [Bool.not_eq_true] at hp
      simp only [hp, Bool.false_eq_true, if_false]
      rcases hc : correlateOne pending matchedIds r with _ | ⟨m, code⟩
      · obtain ⟨ih1, ih2, ih3⟩ := ih matchedIds
        exact ⟨ih1, ih2, ih3.trans (List.sublist_cons_self r rest)⟩
      · by_cases hm : matchedIds.contains m = true
        · simp only [hm, if_true]
          obtain ⟨ih1, ih2, ih3⟩ := ih matchedIds
          exact ⟨ih1, ih2, ih3.trans (List.sublist_cons_self r rest)⟩
        · simp only [Bool.not_eq_true] at hm
          simp only [hm, Bool.false_eq_true, if_false]
          obtain ⟨ih1, ih2, ih3⟩ := ih (m :: matchedIds)
          have hmnot : m ∉ matchedIds := by
            intro hX
            have h2 : matchedIds.contains m = true := by
              unfold List.contains
              exact List.elem_eq_true_of_mem hX
            rw [h2] at hm
            simp at hm
          refine ⟨?_, ?_, ?_⟩
          · simp only [List.map_cons]
            refine List.nodup_cons.mpr ⟨?_, ih1⟩
            intro hX
            exact (ih2 m hX) (List.mem_cons_self m matchedIds)
          · intro x hx
            simp only [List.map_cons, List.mem_cons] at hx
            rcases hx with h | h
            · rw [h]; exact hmnot
            · intro hX
              exact (ih2 x h) (List.mem_cons_of_mem m hX)
          · simp only [List.map_cons]
            exact ih3.cons₂ r

/-- Claim C9: within one polling run the correlation is injective — the
matched outbound identifiers of the returned batch are pairwise distinct
(no outbound row is consumed twice) and the returned replies form a sublist
of the inbound batch (each inbound message contributes at most one match). -/
theorem correlation_injective (pending : List SentEmail)
    (processed : List String) (replies : List IncomingEmail) :
    ((fetch_unprocessed_replies pending processed replies).map
        (fun m => m.matched_message_id)).Nodup ∧
      ((fetch_unprocessed_replies pending processed replies).map
          (fun m => m.reply)).Sublist replies := by
  unfold fetch_unprocessed_replies
  split
  · simp
  · split
    · simp
    · obtain ⟨h1, _, h3⟩ := correlateLoop_inv pending processed replies []
      exact ⟨h1, h3⟩

end MailCore
